import Mathlib

/-!
Verification of the OpenChoreo dual-mode pagination core: cursor parameter
resolution (`parseCursorParams`), cursor validation (`validateCursor`),
the feature-flag store (`LoadFeatureFlags` / `GetCursorPaginationEnabled` /
`InvalidateCache`), and the upstream error classifier.

Machine integers are modelled as `Nat`/`Int`; byte strings as `List Nat`
(each element a byte value below 256); fallible Go functions return
`Option`/product-with-error mirroring Go's multiple return values.
-/

/-! ## Constants (handlers, consolidated version) -/

def DefaultLimit : Int := 16

def MaxLimit : Int := 1024

def MaxCursorLength : Nat := 512

def MaxDecodedCursorLength : Nat := 512

/-! ## Go standard-library base64 decoding (encoding/base64)

`base64.StdEncoding.DecodeString` / `base64.URLEncoding.DecodeString`:
carriage returns and newlines are skipped anywhere, the input is decoded
in quanta of four digits, padding with one or two trailing `=` is
mandatory for a final partial quantum, anything after the padding is an
error, and (non-strict mode) unused trailing bits are ignored. -/

def b64StdVal (c : Char) : Option Nat :=
  if 'A' ≤ c ∧ c ≤ 'Z' then some (c.toNat - 65)
  else if 'a' ≤ c ∧ c ≤ 'z' then some (c.toNat - 71)
  else if '0' ≤ c ∧ c ≤ '9' then some (c.toNat + 4)
  else if c = '+' then some 62
  else if c = '/' then some 63
  else none

def b64UrlVal (c : Char) : Option Nat :=
  if 'A' ≤ c ∧ c ≤ 'Z' then some (c.toNat - 65)
  else if 'a' ≤ c ∧ c ≤ 'z' then some (c.toNat - 71)
  else if '0' ≤ c ∧ c ≤ '9' then some (c.toNat + 4)
  else if c = '-' then some 62
  else if c = '_' then some 63
  else none

def stripCRLF (l : List Char) : List Char :=
  l.filter (fun c => !(c == '\n' || c == '\r'))

def b64DecodeCore (val : Char → Option Nat) : List Char → Option (List Nat)
  | [] => some []
  | [_] => none
  | a :: b :: rest =>
    match val a, val b with
    | some va, some vb =>
      match rest with
      | [] => none
      | '=' :: rest2 => if rest2 = ['='] then some [va * 4 + vb / 16] else none
      | c :: rest2 =>
        match val c with
        | some vc =>
          match rest2 with
          | [] => none
          | ['='] => some [va * 4 + vb / 16, (vb % 16) * 16 + vc / 4]
          | d :: rest3 =>
            match val d with
            | some vd =>
              match b64DecodeCore val rest3 with
              | some tail =>
                some ((va * 4 + vb / 16) :: ((vb % 16) * 16 + vc / 4) ::
                  ((vc % 4) * 64 + vd) :: tail)
              | none => none
            | none => none
        | none => none
    | _, _ => none

def goBase64Decode (val : Char → Option Nat) (s : List Char) : Option (List Nat) :=
  b64DecodeCore val (stripCRLF s)

/-- Standard decode, falling back to URL-safe decode on error, exactly as
in `validateCursor`. -/
def decodeStdOrUrl (s : List Char) : Option (List Nat) :=
  match goBase64Decode b64StdVal s with
  | some d => some d
  | none => goBase64Decode b64UrlVal s

/-! ## UTF-8 validity

`utf8Valid` embeds Go's `unicode/utf8.Valid` (used by the consolidated
`isValidUTF8` in the newer handlers version): leads C2-DF take one
continuation byte, E0/ED have restricted first continuations, F0/F4 have
restricted first continuations, C0-C1 and F5-FF are invalid.

`isValidUTF8` embeds the hand-rolled checker of
`internal/openchoreo-api/handlers/helpers.go`, which only checks lead
ranges [C0,F8) and continuation masks. -/

/-- One-byte-per-step form of Go's `utf8.Valid` loop: the first argument
is the list of (low, high) bounds the upcoming continuation bytes must
satisfy for the multi-byte character currently being consumed (empty
when at a character boundary). A lead byte pushes the bounds of its
continuation bytes — E0, ED, F0 and F4 restrict their first
continuation, all remaining continuations are 80..BF — and C0, C1 and
F5..FF are invalid leads; input ending mid-character is invalid. -/
def utf8ValidAux : List (Nat × Nat) → List Nat → Bool
  | [], [] => true
  | _ :: _, [] => false
  | [], a :: l =>
    if a ≤ 0x7F then utf8ValidAux [] l
    else if a < 0xC2 then false
    else if a ≤ 0xDF then utf8ValidAux [(0x80, 0xBF)] l
    else if a = 0xE0 then utf8ValidAux [(0xA0, 0xBF), (0x80, 0xBF)] l
    else if a = 0xED then utf8ValidAux [(0x80, 0x9F), (0x80, 0xBF)] l
    else if a ≤ 0xEF then utf8ValidAux [(0x80, 0xBF), (0x80, 0xBF)] l
    else if a = 0xF0 then utf8ValidAux [(0x90, 0xBF), (0x80, 0xBF), (0x80, 0xBF)] l
    else if a ≤ 0xF3 then utf8ValidAux [(0x80, 0xBF), (0x80, 0xBF), (0x80, 0xBF)] l
    else if a = 0xF4 then utf8ValidAux [(0x80, 0x8F), (0x80, 0xBF), (0x80, 0xBF)] l
    else false
  | (lo, hi) :: ps, a :: l =>
    if lo ≤ a ∧ a ≤ hi then utf8ValidAux ps l else false

/-- Embedding of Go's `unicode/utf8.Valid` (the consolidated handlers
version delegates `isValidUTF8` to it). -/
def utf8Valid (l : List Nat) : Bool := utf8ValidAux [] l

/-- One-byte-per-step form of the hand-rolled checker's loop: the first
argument counts the continuation bytes still expected for the multi-byte
character being consumed, each checked only against the 10xxxxxx mask;
leads below C0 or at F8 and above are invalid, leads below E0 expect one
continuation, below F0 two, otherwise three; input ending mid-character
is invalid (the Go loop's `i+k >= len(b)` bound checks). -/
def isValidUTF8Aux : Nat → List Nat → Bool
  | 0, [] => true
  | _ + 1, [] => false
  | 0, a :: l =>
    if a < 0x80 then isValidUTF8Aux 0 l
    else if a < 0xC0 ∨ 0xF8 ≤ a then false
    else if a < 0xE0 then isValidUTF8Aux 1 l
    else if a < 0xF0 then isValidUTF8Aux 2 l
    else isValidUTF8Aux 3 l
  | n + 1, a :: l => if a &&& 0xC0 = 0x80 then isValidUTF8Aux n l else false

/-- Embedding of the hand-rolled `isValidUTF8` of
`internal/openchoreo-api/handlers/helpers.go`, which only checks the
lead range [C0, F8) and the continuation mask `b AND C0 = 80`. -/
def isValidUTF8 (l : List Nat) : Bool := isValidUTF8Aux 0 l

/-! ## Cursor validation (handlers, consolidated version `validateCursor`) -/

inductive CursorError where
  | tooLong
  | badBase64
  | nullByte
  | tooLongDecoded
  | badUtf8
deriving DecidableEq

/-- Embedding of `validateCursor` (consolidated handlers version). The
cursor is a Go string; Go's `len` is the UTF-8 byte size. Returns `none`
on success, `some e` for the first failing rule. -/
def validateCursor (cursor : String) : Option CursorError :=
  if cursor = "" then none
  else if MaxCursorLength < cursor.utf8ByteSize then some .tooLong
  else
    match decodeStdOrUrl cursor.data with
    | none => some .badBase64
    | some decoded =>
      if decoded.any (fun b => b == 0) then some .nullByte
      else if MaxDecodedCursorLength < decoded.length then some .tooLongDecoded
      else if decoded ≠ [] ∧ utf8Valid decoded = false then some .badUtf8
      else none

/-! ## Go strconv.ParseInt (base 10, 64-bit) -/

def goParseInt (s : String) : Option Int :=
  match s.data with
  | [] => none
  | c :: rest =>
    let signDigits : Bool × List Char :=
      if c = '+' then (false, rest)
      else if c = '-' then (true, rest)
      else (false, c :: rest)
    if signDigits.2 = [] then none
    else if signDigits.2.all (fun d => decide ('0' ≤ d) && decide (d ≤ '9')) then
      let v : Nat := signDigits.2.foldl (fun acc d => acc * 10 + (d.toNat - 48)) 0
      let i : Int := if signDigits.1 then - (v : Int) else (v : Int)
      if i < - (2 ^ 63) ∨ 2 ^ 63 - 1 < i then none else some i
    else none

/-! ## parseCursorParams (handlers, consolidated version)

The Go function takes the request and reads query parameters `cursor`,
`limit`, `pagination` (each `""` when absent) and consults
`config.GetCursorPaginationEnabled()`; here the three strings and the
flag value are explicit arguments. The result mirrors Go's
`(cursor, limit, useCursor, err)` quadruple; every error path returns
the zero values `("", 0, false)` alongside the error. -/

inductive ParamError where
  | invalidMode
  | cursorErr (e : CursorError)
  | invalidLimitFormat
  | nonPositiveLimit
deriving DecidableEq

/-- Shared tail of `parseCursorParams` once the mode is resolved: cursor
validation (only in cursor mode) followed by limit resolution. -/
def parseAfterMode (cursor limitStr : String) (useCursor : Bool) :
    String × Int × Bool × Option ParamError :=
  match (if useCursor then validateCursor cursor else none) with
  | some ce => ("", 0, false, some (.cursorErr ce))
  | none =>
    if limitStr = "" then (cursor, DefaultLimit, useCursor, none)
    else
      match goParseInt limitStr with
      | none => ("", 0, false, some .invalidLimitFormat)
      | some v =>
        if v ≤ 0 then ("", 0, false, some .nonPositiveLimit)
        else if MaxLimit < v then (cursor, MaxLimit, useCursor, none)
        else (cursor, v, useCursor, none)

/-- Embedding of the consolidated `parseCursorParams`: explicit
`pagination` parameter first, then cursor presence, then the feature
flag. -/
def parseCursorParams (flag : Bool) (cursor limitStr mode : String) :
    String × Int × Bool × Option ParamError :=
  if mode = "cursor" then parseAfterMode cursor limitStr true
  else if mode = "legacy" then parseAfterMode cursor limitStr false
  else if mode ≠ "" then ("", 0, false, some .invalidMode)
  else if cursor ≠ "" then parseAfterMode cursor limitStr true
  else parseAfterMode cursor limitStr flag

/-- Mode resolution as worded by the spec (explicit mode over cursor
presence over flag), used to compare the implementation against the
spec's precedence contract; `none` is the invalid-mode hard error. -/
def specResolveMode (mode : String) (cursorNonEmpty : Bool) (flag : Bool) :
    Option Bool :=
  if mode = "cursor" then some true
  else if mode = "legacy" then some false
  else if mode ≠ "" then none
  else if cursorNonEmpty then some true
  else some flag

/-! ## Feature-flag store (config package)

The store's mutable globals (`globalConfig`, `lastLoadTime`) are modelled
as an explicit `StoreState`; each call additionally receives the current
wall-clock time, the environment variable lookup result
(`none` = unset) and the outcome of reading `config/flags.json`
(`missing`, `corrupt` = read or parse failure other than not-exist, or
`ok f` = parsed document whose `features.cursor_pagination_enabled`
field is `f`, with `none` meaning the field is absent so the previous
value is kept, as with `json.Unmarshal` merging). -/

structure FeatureFlags where
  cursorPaginationEnabled : Bool
deriving DecidableEq

structure Config where
  features : FeatureFlags
deriving DecidableEq

inductive FileRead where
  | missing
  | corrupt
  | ok (flag : Option Bool)
deriving DecidableEq

structure StoreState where
  globalConfig : Option Config
  lastLoadTime : Nat
deriving DecidableEq

/-- Five minutes, in nanoseconds as Go's `time.Duration` counts. -/
def cacheTTL : Nat := 300000000000

/-- Environment override step of `LoadFeatureFlags` (newer config
version): `os.LookupEnv` applied after the file, any set value (even
empty) replaces the flag with `value == "true"`. -/
def applyEnv (cfg : Config) (env : Option String) : Config :=
  match env with
  | some v => ⟨⟨v == "true"⟩⟩
  | none => cfg

/-- Reload section of `LoadFeatureFlags` (newer config version): default
flags, then the file (not-exist tolerated, other errors surfaced before
the environment is consulted), then the environment override. `some ()`
is the load error. -/
def reloadConfig (env : Option String) (file : FileRead) : Config × Option Unit :=
  let cfg : Config := ⟨⟨false⟩⟩
  match file with
  | .corrupt => (cfg, some ())
  | .missing => (applyEnv cfg env, none)
  | .ok f => (applyEnv ⟨⟨f.getD cfg.features.cursorPaginationEnabled⟩⟩ env, none)

/-- Publication step: a successful reload replaces the snapshot and the
load time; a failed reload leaves the previous snapshot in place and
returns the default config together with the error, as the Go code
returns before assigning `globalConfig`. -/
def doReload (st : StoreState) (now : Nat) (env : Option String) (file : FileRead) :
    StoreState × Config × Option Unit :=
  match reloadConfig env file with
  | (cfg, some e) => (st, cfg, some e)
  | (cfg, none) => (⟨some cfg, now⟩, cfg, none)

/-- Embedding of `LoadFeatureFlags` (newer config version): return the
cached snapshot while it is fresh, otherwise reload. The sequential
model collapses the double-checked lock re-test into one test. -/
def loadFeatureFlags (st : StoreState) (now : Nat) (env : Option String)
    (file : FileRead) : StoreState × Config × Option Unit :=
  match st.globalConfig with
  | some c =>
    if now - st.lastLoadTime < cacheTTL then (st, c, none)
    else doReload st now env file
  | none => doReload st now env file

/-- Embedding of `GetCursorPaginationEnabled`: fail safe to `false` when
loading fails. -/
def getCursorPaginationEnabled (st : StoreState) (now : Nat) (env : Option String)
    (file : FileRead) : StoreState × Bool :=
  match loadFeatureFlags st now env file with
  | (st2, _, some _) => (st2, false)
  | (st2, cfg, none) => (st2, cfg.features.cursorPaginationEnabled)

/-- Embedding of `InvalidateCache`: clear the snapshot and zero the load
time. -/
def invalidateCache (_st : StoreState) : StoreState := ⟨none, 0⟩

/-- Reload section of the older `config/flags.go` version of
`LoadFeatureFlags`: the environment (read with `os.Getenv`, applied only
when non-empty) is consulted before the file is unmarshalled on top of
it, and file errors are swallowed. -/
def reloadConfigEnvFirst (env : Option String) (file : FileRead) : Config :=
  let cfg : Config := ⟨⟨false⟩⟩
  let cfg2 : Config := if env.getD "" ≠ "" then ⟨⟨env.getD "" == "true"⟩⟩ else cfg
  match file with
  | .ok (some v) => ⟨⟨v⟩⟩
  | .ok none => cfg2
  | .missing => cfg2
  | .corrupt => cfg2

/-! ## Error classification (services package) -/

inductive ErrorKind where
  | tokenExpired
  | invalidCursor
  | unavailable
  | other
deriving DecidableEq

/-- A Go error value: its message, and the HTTP status code of a wrapped
Kubernetes `StatusError` when there is one (`apierrors.IsGone`,
`IsBadRequest`, `IsServiceUnavailable` test that code). `none` at the
outer `Option` is Go's nil error. -/
structure GoError where
  msg : String
  statusCode : Option Nat
deriving DecidableEq

def lowerStr (s : String) : String := s.map Char.toLower

def startsWithL : List Char → List Char → Bool
  | _, [] => true
  | [], _ :: _ => false
  | a :: as, p :: ps => a == p && startsWithL as ps

def containsSub (l pat : List Char) : Bool :=
  match l with
  | [] => pat.isEmpty
  | _ :: as => startsWithL l pat || containsSub as pat

def strContains (s pat : String) : Bool := containsSub s.data pat.data

/-- Embedding of `isExpiredTokenError` from
`internal/openchoreo-api/services/errors.go`. -/
def isExpiredTokenError (e : Option GoError) : Bool :=
  match e with
  | none => false
  | some err =>
    (err.statusCode == some 410) ||
      (strContains (lowerStr err.msg) "continue token" &&
        strContains (lowerStr err.msg) "expired")

/-- Modelled from the spec: `isInvalidCursorError` is absent from the
sources (only its tests appear); a 400/BadRequest-equivalent condition,
or a message containing "invalid cursor" or "invalid token". -/
def isInvalidCursorError (e : Option GoError) : Bool :=
  match e with
  | none => false
  | some err =>
    (err.statusCode == some 400) || strContains err.msg "invalid cursor" ||
      strContains err.msg "invalid token"

/-- Modelled from the spec: `isServiceUnavailableError` is absent from
the sources (only its tests appear); a 503/ServiceUnavailable-equivalent
condition. -/
def isServiceUnavailableError (e : Option GoError) : Bool :=
  match e with
  | none => false
  | some err => err.statusCode == some 503

/-- Modelled from the spec: the classifier `classify(err) -> ErrorKind`
is absent from the sources; first match wins in the order TokenExpired,
InvalidCursor, Unavailable, Other. -/
def classify (e : Option GoError) : ErrorKind :=
  if isExpiredTokenError e then .tokenExpired
  else if isInvalidCursorError e then .invalidCursor
  else if isServiceUnavailableError e then .unavailable
  else .other

/-! ## Helper lemmas -/

theorem goParseInt_empty : goParseInt "" = none := rfl

theorem parseAfterMode_fail (c l : String) (ce : CursorError)
    (h : validateCursor c = some ce) :
    parseAfterMode c l true = ("", 0, false, some (.cursorErr ce)) := by
  simp [parseAfterMode, h]

theorem parseAfterMode_shape (c l : String) (u : Bool) :
    (∃ e, parseAfterMode c l u = ("", 0, false, some e)) ∨
    (∃ lim, 1 ≤ lim ∧ lim ≤ MaxLimit ∧ parseAfterMode c l u = (c, lim, u, none) ∧
      ((l = "" ∧ lim = DefaultLimit) ∨
        (∃ v, goParseInt l = some v ∧ 0 < v ∧
          ((MaxLimit < v ∧ lim = MaxLimit) ∨ (v ≤ MaxLimit ∧ lim = v))))) := by
  unfold parseAfterMode
  cases hv : (if u then validateCursor c else none) with
  | some ce => exact Or.inl ⟨_, rfl⟩
  | none =>
    by_cases hl : l = ""
    · refine Or.inr ⟨DefaultLimit, by norm_num [DefaultLimit], by norm_num [DefaultLimit, MaxLimit], ?_, Or.inl ⟨hl, rfl⟩⟩
      simp [hl]
    · simp only [if_neg hl]
      cases hp : goParseInt l with
      | none => exact Or.inl ⟨_, rfl⟩
      | some v =>
        by_cases h0 : v ≤ 0
        · simp only [if_pos h0]
          exact Or.inl ⟨_, rfl⟩
        · simp only [if_neg h0]
          by_cases hm : MaxLimit < v
          · simp only [if_pos hm]
            exact Or.inr ⟨MaxLimit, by norm_num [MaxLimit], le_refl _, rfl,
              Or.inr ⟨v, rfl, by omega, Or.inl ⟨hm, rfl⟩⟩⟩
          · simp only [if_neg hm]
            exact Or.inr ⟨v, by omega, by omega, rfl,
              Or.inr ⟨v, rfl, by omega, Or.inr ⟨by omega, rfl⟩⟩⟩

theorem parseAfterMode_limit_unparseable (c l : String) (u : Bool) (hl : l ≠ "")
    (hp : goParseInt l = none) : ((parseAfterMode c l u).2.2.2).isSome = true := by
  unfold parseAfterMode
  cases hv : (if u then validateCursor c else none) <;> simp [hl, hp]

theorem parseAfterMode_limit_nonpos (c l : String) (u : Bool) (v : Int)
    (hp : goParseInt l = some v) (h0 : v ≤ 0) :
    ((parseAfterMode c l u).2.2.2).isSome = true := by
  have hl : l ≠ "" := by
    intro h
    rw [h, goParseInt_empty] at hp
    exact Option.noConfusion hp
  unfold parseAfterMode
  cases hv : (if u then validateCursor c else none) <;> simp [hl, hp, h0]

theorem parseAfterMode_ok (c l : String) (u : Bool)
    (hv : (if u then validateCursor c else none) = none)
    (hl : l = "" ∨ ∃ v, goParseInt l = some v ∧ 0 < v) :
    (parseAfterMode c l u).2.2.2 = none := by
  unfold parseAfterMode
  rw [hv]
  rcases hl with hl | ⟨v, hp, h0⟩
  · simp [hl]
  · have hne : l ≠ "" := by
      intro h
      rw [h, goParseInt_empty] at hp
      exact Option.noConfusion hp
    simp only [if_neg hne, hp]
    have h0n : ¬ v ≤ 0 := by omega
    simp only [if_neg h0n]
    by_cases hm : MaxLimit < v <;> simp [hm]

theorem parseCursorParams_mode_cursor (flag : Bool) (c l : String) :
    parseCursorParams flag c l "cursor" = parseAfterMode c l true := rfl

theorem parseCursorParams_mode_legacy (flag : Bool) (c l : String) :
    parseCursorParams flag c l "legacy" = parseAfterMode c l false := rfl

theorem parseCursorParams_mode_invalid (flag : Bool) (c l m : String)
    (h1 : m ≠ "cursor") (h2 : m ≠ "legacy") (h3 : m ≠ "") :
    parseCursorParams flag c l m = ("", 0, false, some .invalidMode) := by
  simp [parseCursorParams, h1, h2, h3]

theorem parseCursorParams_empty_mode_cursor (flag : Bool) (c l : String) (hc : c ≠ "") :
    parseCursorParams flag c l "" = parseAfterMode c l true := by
  simp [parseCursorParams, hc]

theorem parseCursorParams_empty_mode_flag (flag : Bool) (l : String) :
    parseCursorParams flag "" l "" = parseAfterMode "" l flag := rfl

theorem parseCursorParams_shape (flag : Bool) (c l m : String) :
    (specResolveMode m (c != "") flag = none ∧
      parseCursorParams flag c l m = ("", 0, false, some .invalidMode)) ∨
    (∃ u, specResolveMode m (c != "") flag = some u ∧
      parseCursorParams flag c l m = parseAfterMode c l u) := by
  by_cases h1 : m = "cursor"
  · subst h1
    exact Or.inr ⟨true, rfl, rfl⟩
  · by_cases h2 : m = "legacy"
    · subst h2
      exact Or.inr ⟨false, rfl, rfl⟩
    · by_cases h3 : m = ""
      · subst h3
        by_cases hc : c = ""
        · subst hc
          exact Or.inr ⟨flag, rfl, rfl⟩
        · refine Or.inr ⟨true, ?_, parseCursorParams_empty_mode_cursor flag c l hc⟩
          simp [specResolveMode, hc]
      · refine Or.inl ⟨?_, parseCursorParams_mode_invalid flag c l m h1 h2 h3⟩
        simp [specResolveMode, h1, h2, h3]

theorem parseAfterMode_ok_validation (c l : String) (u : Bool)
    (h : (parseAfterMode c l u).2.2.2 = none) :
    (if u then validateCursor c else none) = none := by
  cases hv : (if u then validateCursor c else none) with
  | none => rfl
  | some ce =>
    unfold parseAfterMode at h
    rw [hv] at h
    simp at h

theorem parseAfterMode_legacy_no_cursor_err (c l : String) (e : CursorError) :
    (parseAfterMode c l false).2.2.2 ≠ some (ParamError.cursorErr e) := by
  unfold parseAfterMode
  split
  · next heq => simp at heq
  · next =>
    split_ifs with hl
    · simp
    · split
      · simp
      · split_ifs <;> simp

theorem parseCursorParams_ok_shape (flag : Bool) (c l m : String)
    (h : (parseCursorParams flag c l m).2.2.2 = none) :
    ∃ u lim, parseCursorParams flag c l m = (c, lim, u, none) ∧
      1 ≤ lim ∧ lim ≤ MaxLimit ∧
      ((l = "" ∧ lim = DefaultLimit) ∨
        (∃ v, goParseInt l = some v ∧ 0 < v ∧
          ((MaxLimit < v ∧ lim = MaxLimit) ∨ (v ≤ MaxLimit ∧ lim = v)))) := by
  rcases parseCursorParams_shape flag c l m with ⟨_, herr⟩ | ⟨u, _, heq⟩
  · rw [herr] at h
    simp at h
  · rcases parseAfterMode_shape c l u with ⟨e, he⟩ | ⟨lim, h1, h2, hok, hlim⟩
    · rw [heq, he] at h
      simp at h
    · exact ⟨u, lim, by rw [heq, hok], h1, h2, hlim⟩

/-- C1: for every list request, pagination mode resolution follows the
precedence explicit mode over cursor presence over feature flag: an
explicit `pagination=cursor` forces cursor mode and `pagination=legacy`
forces legacy mode regardless of cursor or flag, any other non-empty
pagination value is the hard invalid-mode error, otherwise a non-empty
cursor selects cursor mode, otherwise the flag decides; the resolved
mode is the deterministic function `specResolveMode` of those three
inputs. -/
theorem parseCursorParams_mode_precedence (flag : Bool) (cursor limitStr mode : String) :
    ((parseCursorParams flag cursor limitStr mode).2.2.2 = none →
      some ((parseCursorParams flag cursor limitStr mode).2.2.1) =
        specResolveMode mode (cursor != "") flag)
    ∧ (mode ≠ "" → mode ≠ "cursor" → mode ≠ "legacy" →
      parseCursorParams flag cursor limitStr mode = ("", 0, false, some .invalidMode))
    ∧ (mode = "legacy" →
      ∀ e, (parseCursorParams flag cursor limitStr mode).2.2.2 ≠
        some (ParamError.cursorErr e))
    ∧ ((mode = "cursor" ∨ mode = "legacy") →
      ∀ flag2, parseCursorParams flag cursor limitStr mode =
        parseCursorParams flag2 cursor limitStr mode) := by
  refine ⟨?_, ?_, ?_, ?_⟩
  · intro h
    rcases parseCursorParams_shape flag cursor limitStr mode with ⟨_, herr⟩ | ⟨u, hs, heq⟩
    · rw [herr] at h
      simp at h
    · rcases parseAfterMode_shape cursor limitStr u with ⟨e, he⟩ | ⟨lim, _, _, hok, _⟩
      · rw [heq, he] at h
        simp at h
      · rw [heq, hok]
        exact hs.symm
  · exact fun h3 h1 h2 => parseCursorParams_mode_invalid flag cursor limitStr mode h1 h2 h3
  · intro hm e
    rw [hm, parseCursorParams_mode_legacy]
    exact parseAfterMode_legacy_no_cursor_err cursor limitStr e
  · rintro (hm | hm) flag2 <;> rw [hm] <;> rfl

/-- C1 witness: with no pagination parameter, a non-empty cursor and the
flag off, the resolved mode is cursor mode. -/
theorem parseCursorParams_mode_precedence_witness :
    (parseCursorParams false "SGVsbG8=" "" "").2.2.1 = true := by
  have h := (parseCursorParams_mode_precedence false "SGVsbG8=" "" "").1 (by decide)
  have h2 : specResolveMode "" ("SGVsbG8=" != "") false = some true := by decide
  rw [h2] at h
  exact Option.some.inj h

/-- C3: limit resolution is independent of the resolved mode: an absent
limit resolves to the default 16, an unparseable or non-positive limit
fails the call, a parsed value above the maximum 1024 is clamped to 1024
without making the call fail, any other parsed value is used as is, and
every successfully resolved limit lies in [1, 1024]. -/
theorem parseCursorParams_limit_spec (flag : Bool) (cursor mode limitStr : String) :
    (limitStr ≠ "" → goParseInt limitStr = none →
      ((parseCursorParams flag cursor limitStr mode).2.2.2).isSome = true)
    ∧ (∀ v, goParseInt limitStr = some v → v ≤ 0 →
      ((parseCursorParams flag cursor limitStr mode).2.2.2).isSome = true)
    ∧ ((parseCursorParams flag cursor limitStr mode).2.2.2 = none →
      (limitStr = "" → (parseCursorParams flag cursor limitStr mode).2.1 = DefaultLimit)
      ∧ (∀ v, goParseInt limitStr = some v →
        (MaxLimit < v → (parseCursorParams flag cursor limitStr mode).2.1 = MaxLimit)
        ∧ (v ≤ MaxLimit → (parseCursorParams flag cursor limitStr mode).2.1 = v))
      ∧ 1 ≤ (parseCursorParams flag cursor limitStr mode).2.1
      ∧ (parseCursorParams flag cursor limitStr mode).2.1 ≤ MaxLimit)
    ∧ (∀ flag2 cursor2 mode2,
      (parseCursorParams flag cursor limitStr mode).2.2.2 = none →
      (parseCursorParams flag2 cursor2 limitStr mode2).2.2.2 = none →
      (parseCursorParams flag cursor limitStr mode).2.1 =
        (parseCursorParams flag2 cursor2 limitStr mode2).2.1)
    ∧ ((parseCursorParams flag cursor "" mode).2.2.2 = none →
      ∀ v, goParseInt limitStr = some v → 0 < v →
      (parseCursorParams flag cursor limitStr mode).2.2.2 = none) := by
  refine ⟨?_, ?_, ?_, ?_, ?_⟩
  · intro hl hp
    rcases parseCursorParams_shape flag cursor limitStr mode with ⟨_, herr⟩ | ⟨u, _, heq⟩
    · rw [herr]
      rfl
    · rw [heq]
      exact parseAfterMode_limit_unparseable cursor limitStr u hl hp
  · intro v hp h0
    rcases parseCursorParams_shape flag cursor limitStr mode with ⟨_, herr⟩ | ⟨u, _, heq⟩
    · rw [herr]
      rfl
    · rw [heq]
      exact parseAfterMode_limit_nonpos cursor limitStr u v hp h0
  · intro h
    obtain ⟨u, lim, heq, h1, h2, hlim⟩ := parseCursorParams_ok_shape flag cursor limitStr mode h
    refine ⟨?_, ?_, ?_, ?_⟩
    · intro hl
      rcases hlim with ⟨_, hd⟩ | ⟨v, hp, _, _⟩
      · rw [heq]
        exact hd
      · rw [hl, goParseInt_empty] at hp
        exact Option.noConfusion hp
    · intro v hp
      rcases hlim with ⟨hl, _⟩ | ⟨v2, hp2, h02, hcase⟩
      · rw [hl, goParseInt_empty] at hp
        exact Option.noConfusion hp
      · have hv : v = v2 := Option.some.inj ((hp.symm.trans hp2))
        constructor
        · intro hm
          rw [heq]
          show lim = MaxLimit
          rcases hcase with ⟨_, hlm⟩ | ⟨hle, _⟩
          · exact hlm
          · omega
        · intro hle
          rw [heq]
          show lim = v
          rcases hcase with ⟨hm, _⟩ | ⟨_, hlv⟩
          · omega
          · omega
    · rw [heq]
      exact h1
    · rw [heq]
      exact h2
  · intro flag2 cursor2 mode2 ha hb
    obtain ⟨u1, lim1, heq1, _, _, hlim1⟩ :=
      parseCursorParams_ok_shape flag cursor limitStr mode ha
    obtain ⟨u2, lim2, heq2, _, _, hlim2⟩ :=
      parseCursorParams_ok_shape flag2 cursor2 limitStr mode2 hb
    rw [heq1, heq2]
    show lim1 = lim2
    rcases hlim1 with ⟨hl1, hd1⟩ | ⟨v1, hp1, h01, hc1⟩
    · rcases hlim2 with ⟨_, hd2⟩ | ⟨v2, hp2, _, _⟩
      · rw [hd1, hd2]
      · rw [hl1, goParseInt_empty] at hp2
        exact Option.noConfusion hp2
    · rcases hlim2 with ⟨hl2, _⟩ | ⟨v2, hp2, h02, hc2⟩
      · rw [hl2, goParseInt_empty] at hp1
        exact Option.noConfusion hp1
      · have hv : v1 = v2 := Option.some.inj (hp1.symm.trans hp2)
        rcases hc1 with ⟨hm1, he1⟩ | ⟨hm1, he1⟩ <;> rcases hc2 with ⟨hm2, he2⟩ | ⟨hm2, he2⟩ <;>
          omega
  · intro h v hp h0
    rcases parseCursorParams_shape flag cursor "" mode with ⟨hn, herr⟩ | ⟨u, hs, heq0⟩
    · rw [herr] at h
      simp at h
    · rcases parseCursorParams_shape flag cursor limitStr mode with ⟨hn2, _⟩ | ⟨u2, hs2, heq2⟩
      · rw [hn2] at hs
        exact Option.noConfusion hs
      · rw [heq0] at h
        have hval := parseAfterMode_ok_validation cursor "" u h
        have huu : u = u2 := Option.some.inj (hs.symm.trans hs2)
        rw [heq2]
        apply parseAfterMode_ok
        · rw [← huu]
          exact hval
        · exact Or.inr ⟨v, hp, h0⟩

/-- C3 witness: with the flag on and a limit of 2000, the call succeeds
and the limit is clamped to 1024. -/
theorem parseCursorParams_limit_spec_witness :
    (parseCursorParams true "" "2000" "").2.2.2 = none ∧
    (parseCursorParams true "" "2000" "").2.1 = MaxLimit := by
  have h5 := (parseCursorParams_limit_spec true "" "" "2000").2.2.2.2 (by decide) 2000
    (by decide) (by decide)
  have h3 := ((parseCursorParams_limit_spec true "" "" "2000").2.2.1 h5).2.1 2000 (by decide)
  exact ⟨h5, h3.1 (by decide)⟩

/-- C4 counterexample: on an explicitly cursor-moded request carrying an
invalid cursor, the returned error is the validator's failure but the
returned mode indicator is `false` (the Go zero value), not cursor
mode. -/
theorem parseCursorParams_error_mode_indicator :
    (parseCursorParams false "!!!" "" "cursor").2.2.2 =
      some (ParamError.cursorErr CursorError.badBase64) ∧
    (parseCursorParams false "!!!" "" "cursor").2.2.1 = false := by
  exact ⟨by decide, by decide⟩

/-- C4 amended: whenever the resolved mode is cursor mode and the
supplied cursor fails validation, parseCursorParams returns the
validator's failure as its own error (the request fails rather than
silently proceeding in legacy mode), with all non-error components
zeroed, so the returned mode indicator is `false`. -/
theorem parseCursorParams_cursor_validation_error (flag : Bool)
    (cursor limitStr mode : String) (ce : CursorError)
    (hv : validateCursor cursor = some ce)
    (hm : specResolveMode mode (cursor != "") flag = some true) :
    parseCursorParams flag cursor limitStr mode =
      ("", 0, false, some (.cursorErr ce)) := by
  rcases parseCursorParams_shape flag cursor limitStr mode with ⟨hn, _⟩ | ⟨u, hs, heq⟩
  · rw [hn] at hm
    exact Option.noConfusion hm
  · have hu : u = true := Option.some.inj (hs.symm.trans hm)
    rw [heq, hu]
    exact parseAfterMode_fail cursor limitStr ce hv

/-- C4 amended witness. -/
theorem parseCursorParams_cursor_validation_error_witness :
    parseCursorParams true "%%%" "" "" =
      ("", 0, false, some (ParamError.cursorErr CursorError.badBase64)) :=
  parseCursorParams_cursor_validation_error true "%%%" "" "" CursorError.badBase64
    (by decide) (by decide)


/-- C2: validateCursor succeeds exactly on the empty token or when the
encoded length is at most 512, the token decodes under standard or,
as fallback, URL-safe base64, the decoded bytes contain no null byte,
the decoded length is at most 512, and non-empty decoded bytes are
valid UTF-8; otherwise it fails with the error of the first rule
violated, in that order. -/
theorem validateCursor_spec (c : String) :
    (validateCursor c = none ↔
      (c = "" ∨ (c.utf8ByteSize ≤ MaxCursorLength ∧
        ∃ d, decodeStdOrUrl c.data = some d ∧ (∀ b ∈ d, b ≠ 0) ∧
          d.length ≤ MaxDecodedCursorLength ∧ (d ≠ [] → utf8Valid d = true))))
    ∧ (c ≠ "" → MaxCursorLength < c.utf8ByteSize → validateCursor c = some .tooLong)
    ∧ (c ≠ "" → c.utf8ByteSize ≤ MaxCursorLength → decodeStdOrUrl c.data = none →
      validateCursor c = some .badBase64)
    ∧ (∀ d, c ≠ "" → c.utf8ByteSize ≤ MaxCursorLength →
      decodeStdOrUrl c.data = some d → (∃ b ∈ d, b = 0) →
      validateCursor c = some .nullByte)
    ∧ (∀ d, c ≠ "" → c.utf8ByteSize ≤ MaxCursorLength →
      decodeStdOrUrl c.data = some d → (∀ b ∈ d, b ≠ 0) →
      MaxDecodedCursorLength < d.length →
      validateCursor c = some .tooLongDecoded)
    ∧ (∀ d, c ≠ "" → c.utf8ByteSize ≤ MaxCursorLength →
      decodeStdOrUrl c.data = some d → (∀ b ∈ d, b ≠ 0) →
      d.length ≤ MaxDecodedCursorLength → d ≠ [] → utf8Valid d = false →
      validateCursor c = some .badUtf8) := by
  by_cases hc : c = ""
  · subst hc
    simp [validateCursor]
  · by_cases hlen : MaxCursorLength < c.utf8ByteSize
    · have hv : validateCursor c = some CursorError.tooLong := by
        unfold validateCursor
        rw [if_neg hc, if_pos hlen]
      refine ⟨?_, fun _ _ => hv, ?_, ?_, ?_, ?_⟩
      · rw [hv]
        constructor
        · intro h
          exact Option.noConfusion h
        · rintro (h | ⟨h2, _⟩)
          · exact absurd h hc
          · omega
      · intro _ h2 _
        omega
      · intro _ _ h2 _ _
        omega
      · intro _ _ h2 _ _ _
        omega
      · intro _ _ h2 _ _ _ _ _
        omega
    · have hle : c.utf8ByteSize ≤ MaxCursorLength := Nat.le_of_not_lt hlen
      cases hd : decodeStdOrUrl c.data with
      | none =>
        have hv : validateCursor c = some CursorError.badBase64 := by
          unfold validateCursor
          rw [if_neg hc, if_neg hlen, hd]
        refine ⟨?_, ?_, fun _ _ _ => hv, ?_, ?_, ?_⟩
        · rw [hv]
          constructor
          · intro h
            exact Option.noConfusion h
          · rintro (h | ⟨_, d, hd2, _⟩)
            · exact absurd h hc
            · exact Option.noConfusion hd2
        · intro _ h2
          omega
        · intro d _ _ hd2 _
          exact Option.noConfusion hd2
        · intro d _ _ hd2 _ _
          exact Option.noConfusion hd2
        · intro d _ _ hd2 _ _ _ _
          exact Option.noConfusion hd2
      | some d =>
        by_cases hz : d.any (fun b => b == 0) = true
        · have hv : validateCursor c = some CursorError.nullByte := by
            unfold validateCursor
            rw [if_neg hc, if_neg hlen, hd]
            simp only [if_pos hz]
          have hzx : ∃ b ∈ d, b = 0 := by
            rw [List.any_eq_true] at hz
            obtain ⟨b, hb, hb0⟩ := hz
            exact ⟨b, hb, by simpa using hb0⟩
          refine ⟨?_, ?_, ?_, fun _ _ _ _ _ => hv, ?_, ?_⟩
          · rw [hv]
            constructor
            · intro h
              exact Option.noConfusion h
            · rintro (h | ⟨_, d2, hd2, hnz, _⟩)
              · exact absurd h hc
              · obtain rfl : d = d2 := Option.some.inj hd2
                obtain ⟨b, hb, hb0⟩ := hzx
                exact absurd hb0 (hnz b hb)
          · intro _ h2
            omega
          · intro _ _ hd2
            exact Option.noConfusion hd2
          · intro d2 _ _ hd2 hnz _
            obtain rfl : d = d2 := Option.some.inj hd2
            obtain ⟨b, hb, hb0⟩ := hzx
            exact absurd hb0 (hnz b hb)
          · intro d2 _ _ hd2 hnz _ _ _
            obtain rfl : d = d2 := Option.some.inj hd2
            obtain ⟨b, hb, hb0⟩ := hzx
            exact absurd hb0 (hnz b hb)
        · have hnz : ∀ b ∈ d, b ≠ 0 := by
            intro b hb hb0
            refine hz ?_
            rw [List.any_eq_true]
            exact ⟨b, hb, by simp [hb0]⟩
          by_cases hdl : MaxDecodedCursorLength < d.length
          · have hv : validateCursor c = some CursorError.tooLongDecoded := by
              unfold validateCursor
              rw [if_neg hc, if_neg hlen, hd]
              simp only [if_neg hz, if_pos hdl]
            refine ⟨?_, ?_, ?_, ?_, fun _ _ _ _ _ _ => hv, ?_⟩
            · rw [hv]
              constructor
              · intro h
                exact Option.noConfusion h
              · rintro (h | ⟨_, d2, hd2, _, hdle, _⟩)
                · exact absurd h hc
                · obtain rfl : d = d2 := Option.some.inj hd2
                  omega
            · intro _ h2
              omega
            · intro _ _ hd2
              exact Option.noConfusion hd2
            · intro d2 _ _ hd2 hzx
              obtain rfl : d = d2 := Option.some.inj hd2
              obtain ⟨b, hb, hb0⟩ := hzx
              exact absurd hb0 (hnz b hb)
            · intro d2 _ _ hd2 _ hdle
              obtain rfl : d = d2 := Option.some.inj hd2
              omega
          · by_cases hu : d ≠ [] ∧ utf8Valid d = false
            · have hv : validateCursor c = some CursorError.badUtf8 := by
                unfold validateCursor
                rw [if_neg hc, if_neg hlen, hd]
                simp only [if_neg hz, if_neg hdl, if_pos hu]
              refine ⟨?_, ?_, ?_, ?_, ?_, fun _ _ _ _ _ _ _ _ => hv⟩
              · rw [hv]
                constructor
                · intro h
                  exact Option.noConfusion h
                · rintro (h | ⟨_, d2, hd2, _, _, hut⟩)
                  · exact absurd h hc
                  · obtain rfl : d = d2 := Option.some.inj hd2
                    rw [hut hu.1] at hu
                    exact Bool.noConfusion hu.2
              · intro _ h2
                omega
              · intro _ _ hd2
                exact Option.noConfusion hd2
              · intro d2 _ _ hd2 hzx
                obtain rfl : d = d2 := Option.some.inj hd2
                obtain ⟨b, hb, hb0⟩ := hzx
                exact absurd hb0 (hnz b hb)
              · intro d2 _ _ hd2 _ hdle
                obtain rfl : d = d2 := Option.some.inj hd2
                omega
            · have hv : validateCursor c = none := by
                unfold validateCursor
                rw [if_neg hc, if_neg hlen, hd]
                simp only [if_neg hz, if_neg hdl, if_neg hu]
              have hut : d ≠ [] → utf8Valid d = true := by
                intro hne
                cases h : utf8Valid d with
                | false => exact absurd ⟨hne, h⟩ hu
                | true => rfl
              refine ⟨?_, ?_, ?_, ?_, ?_, ?_⟩
              · rw [hv]
                constructor
                · intro _
                  exact Or.inr ⟨hle, d, rfl, hnz, Nat.le_of_not_lt hdl, hut⟩
                · intro _
                  rfl
              · intro _ h2
                omega
              · intro _ _ hd2
                exact Option.noConfusion hd2
              · intro d2 _ _ hd2 hzx
                obtain rfl : d = d2 := Option.some.inj hd2
                obtain ⟨b, hb, hb0⟩ := hzx
                exact absurd hb0 (hnz b hb)
              · intro d2 _ _ hd2 _ hdle
                obtain rfl : d = d2 := Option.some.inj hd2
                omega
              · intro d2 _ _ hd2 _ _ hne hfu
                obtain rfl : d = d2 := Option.some.inj hd2
                exact absurd ⟨hne, hfu⟩ hu

/-- C2 witness: a three-character token that is not a base64 quantum
fails with the base64 error. -/
theorem validateCursor_spec_witness :
    validateCursor "AAA" = some CursorError.badBase64 :=
  (validateCursor_spec "AAA").2.2.1 (by decide) (by decide) (by decide)

/-- C5: in the older `config/flags.go` reload, the environment override
is applied before the file is unmarshalled, so with
`CURSOR_PAGINATION_ENABLED="true"` and a parseable file carrying
`features.cursor_pagination_enabled=false` the published flag is
`false` — the file wins, contradicting the claim (and the package's own
"env overrides file" test); the newer reload (`reloadConfig`) publishes
`true` as the claim demands. -/
theorem reloadConfigEnvFirst_file_wins :
    (reloadConfigEnvFirst (some "true") (.ok (some false))).features.cursorPaginationEnabled
      = false
    ∧ (reloadConfig (some "true") (.ok (some false))).1.features.cursorPaginationEnabled
      = true
    ∧ ("true" == "true") = true := by
  exact ⟨rfl, rfl, rfl⟩

/-- C6 counterexample: with a previous good snapshot (flag `true`) that
has gone stale and a corrupt flags file, the reload surfaces an error
and the current `GetCursorPaginationEnabled` call returns the safe
default `false` — the call fails even though a prior snapshot exists,
contrary to the claim that it fails only when no prior snapshot
exists. -/
theorem getCursorPaginationEnabled_stale_reload_error :
    (StoreState.mk (some ⟨⟨true⟩⟩) 0).globalConfig.isSome = true
    ∧ (loadFeatureFlags ⟨some ⟨⟨true⟩⟩, 0⟩ cacheTTL none .corrupt).2.2.isSome = true
    ∧ (getCursorPaginationEnabled ⟨some ⟨⟨true⟩⟩, 0⟩ cacheTTL none .corrupt).2 = false := by
  exact ⟨rfl, rfl, rfl⟩

/-- C6 amended: a missing configuration file is not an error while any
other read or parse failure surfaces a reload error; a reload error
cannot affect a call made while the previous snapshot is still fresh
(no reload is attempted then), but once the snapshot is stale or absent
a failed reload fails the current get call, with
`GetCursorPaginationEnabled` falling back to the safe default `false`
and never itself failing, and the failed reload leaves the previous
snapshot in place. -/
theorem loadFeatureFlags_reload_error_spec (st : StoreState) (now : Nat)
    (env : Option String) (file : FileRead) (c : Config) :
    (st.globalConfig = some c → now - st.lastLoadTime < cacheTTL →
      loadFeatureFlags st now env file = (st, c, none))
    ∧ (st.globalConfig = none ∨ cacheTTL ≤ now - st.lastLoadTime →
      ((loadFeatureFlags st now env file).2.2 = none ↔ file ≠ .corrupt))
    ∧ (st.globalConfig = none ∨ cacheTTL ≤ now - st.lastLoadTime → file = .corrupt →
      (loadFeatureFlags st now env file).1 = st)
    ∧ ((loadFeatureFlags st now env file).2.2.isSome = true →
      (getCursorPaginationEnabled st now env file).2 = false) := by
  have hreload : st.globalConfig = none ∨ cacheTTL ≤ now - st.lastLoadTime →
      loadFeatureFlags st now env file = doReload st now env file := by
    intro h
    cases hg : st.globalConfig with
    | none =>
      unfold loadFeatureFlags
      rw [hg]
    | some c2 =>
      have hstep : loadFeatureFlags st now env file =
          if now - st.lastLoadTime < cacheTTL then (st, c2, none)
          else doReload st now env file := by
        unfold loadFeatureFlags
        rw [hg]
      rcases h with h | h
      · rw [hg] at h
        exact Option.noConfusion h
      · rw [hstep, if_neg (by omega)]
  refine ⟨?_, ?_, ?_, ?_⟩
  · intro hg hf
    have hstep : loadFeatureFlags st now env file =
        if now - st.lastLoadTime < cacheTTL then (st, c, none)
        else doReload st now env file := by
      unfold loadFeatureFlags
      rw [hg]
    rw [hstep, if_pos hf]
  · intro h
    rw [hreload h]
    unfold doReload reloadConfig
    cases file with
    | corrupt => simp
    | missing => simp
    | ok f => simp
  · intro h hf
    rw [hreload h, hf]
    rfl
  · intro h
    unfold getCursorPaginationEnabled
    cases hl : loadFeatureFlags st now env file with
    | mk st2 rest =>
      cases rest with
      | mk cfg err =>
        cases err with
        | none =>
          rw [hl] at h
          exact Bool.noConfusion h
        | some e => rfl

/-- C6 amended witness: stale snapshot plus corrupt file makes the load
fail, the get call return `false`, and the snapshot survive; a fresh
snapshot is returned untouched. -/
theorem loadFeatureFlags_reload_error_spec_witness :
    (loadFeatureFlags ⟨some ⟨⟨true⟩⟩, 0⟩ cacheTTL none .corrupt).1 = ⟨some ⟨⟨true⟩⟩, 0⟩
    ∧ (getCursorPaginationEnabled ⟨some ⟨⟨true⟩⟩, 0⟩ cacheTTL none .corrupt).2 = false := by
  have h := loadFeatureFlags_reload_error_spec ⟨some ⟨⟨true⟩⟩, 0⟩ cacheTTL none .corrupt
    ⟨⟨true⟩⟩
  exact ⟨h.2.2.1 (Or.inr (by decide)) rfl, h.2.2.2 (by decide)⟩

/-- C7: while the TTL has not elapsed a load returns the cached snapshot
unchanged whatever the environment now holds; once the TTL has elapsed
a load publishes and returns the value derived from the current
environment; and the very next load after `InvalidateCache` reloads
regardless of TTL, since the cleared snapshot cannot be reused. -/
theorem loadFeatureFlags_ttl_spec (st : StoreState) (c : Config) (t : Nat)
    (env : Option String) (file : FileRead) (v : String) :
    (st.globalConfig = some c → t - st.lastLoadTime < cacheTTL →
      loadFeatureFlags st t env file = (st, c, none))
    ∧ (st.globalConfig = some c → cacheTTL ≤ t - st.lastLoadTime →
      loadFeatureFlags st t (some v) .missing =
        (⟨some ⟨⟨v == "true"⟩⟩, t⟩, ⟨⟨v == "true"⟩⟩, none))
    ∧ (loadFeatureFlags (invalidateCache st) t env file =
      doReload (invalidateCache st) t env file)
    ∧ (loadFeatureFlags (invalidateCache st) t (some v) .missing =
      (⟨some ⟨⟨v == "true"⟩⟩, t⟩, ⟨⟨v == "true"⟩⟩, none)) := by
  refine ⟨?_, ?_, rfl, rfl⟩
  · intro hg hf
    have hstep : loadFeatureFlags st t env file =
        if t - st.lastLoadTime < cacheTTL then (st, c, none)
        else doReload st t env file := by
      unfold loadFeatureFlags
      rw [hg]
    rw [hstep, if_pos hf]
  · intro hg hf
    have hstep : loadFeatureFlags st t (some v) .missing =
        if t - st.lastLoadTime < cacheTTL then (st, c, none)
        else doReload st t (some v) .missing := by
      unfold loadFeatureFlags
      rw [hg]
    rw [hstep, if_neg (by omega)]
    rfl

/-- C7 witness: a cache populated at time 0 with the flag on still
returns the old snapshot at time 1 although the environment has changed
to "false"; at time `cacheTTL` the updated value is returned. -/
theorem loadFeatureFlags_ttl_spec_witness :
    loadFeatureFlags ⟨some ⟨⟨true⟩⟩, 0⟩ 1 (some "false") .missing =
      (⟨some ⟨⟨true⟩⟩, 0⟩, ⟨⟨true⟩⟩, none)
    ∧ loadFeatureFlags ⟨some ⟨⟨true⟩⟩, 0⟩ cacheTTL (some "false") .missing =
      (⟨some ⟨⟨false⟩⟩, cacheTTL⟩, ⟨⟨false⟩⟩, none) := by
  constructor
  · exact (loadFeatureFlags_ttl_spec ⟨some ⟨⟨true⟩⟩, 0⟩ ⟨⟨true⟩⟩ 1 (some "false")
      .missing "false").1 rfl (by decide)
  · have h := (loadFeatureFlags_ttl_spec ⟨some ⟨⟨true⟩⟩, 0⟩ ⟨⟨true⟩⟩ cacheTTL
      (some "false") .missing "false").2.1 rfl (by decide)
    simpa using h

/-- C8: error classification is a pure total function applying
first-match-wins: a 410/Gone condition or a message containing both
"continue token" and "expired" case-insensitively yields TokenExpired;
then a 400/BadRequest condition or a message containing "invalid
cursor" or "invalid token" yields InvalidCursor; then a
503/ServiceUnavailable condition yields Unavailable; everything else,
including the nil error, yields Other. -/
theorem classify_spec (e : Option GoError) :
    classify none = ErrorKind.other
    ∧ (classify e = ErrorKind.tokenExpired ↔ isExpiredTokenError e = true)
    ∧ (classify e = ErrorKind.invalidCursor ↔
      (isExpiredTokenError e = false ∧ isInvalidCursorError e = true))
    ∧ (classify e = ErrorKind.unavailable ↔
      (isExpiredTokenError e = false ∧ isInvalidCursorError e = false ∧
        isServiceUnavailableError e = true))
    ∧ (classify e = ErrorKind.other ↔
      (isExpiredTokenError e = false ∧ isInvalidCursorError e = false ∧
        isServiceUnavailableError e = false))
    ∧ (∀ err, isExpiredTokenError (some err) = true ↔
      (err.statusCode = some 410 ∨
        (strContains (lowerStr err.msg) "continue token" = true ∧
          strContains (lowerStr err.msg) "expired" = true)))
    ∧ (∀ err, isInvalidCursorError (some err) = true ↔
      (err.statusCode = some 400 ∨ strContains err.msg "invalid cursor" = true ∨
        strContains err.msg "invalid token" = true))
    ∧ (∀ err, isServiceUnavailableError (some err) = true ↔
      err.statusCode = some 503) := by
  refine ⟨rfl, ?_, ?_, ?_, ?_, ?_, ?_, ?_⟩
  · unfold classify
    cases h1 : isExpiredTokenError e <;> cases h2 : isInvalidCursorError e <;>
      cases h3 : isServiceUnavailableError e <;> simp
  · unfold classify
    cases h1 : isExpiredTokenError e <;> cases h2 : isInvalidCursorError e <;>
      cases h3 : isServiceUnavailableError e <;> simp
  · unfold classify
    cases h1 : isExpiredTokenError e <;> cases h2 : isInvalidCursorError e <;>
      cases h3 : isServiceUnavailableError e <;> simp
  · unfold classify
    cases h1 : isExpiredTokenError e <;> cases h2 : isInvalidCursorError e <;>
      cases h3 : isServiceUnavailableError e <;> simp
  · intro err
    unfold isExpiredTokenError
    simp [Bool.or_eq_true, Bool.and_eq_true]
  · intro err
    unfold isInvalidCursorError
    simp [Bool.or_eq_true, or_assoc]
  · intro err
    unfold isServiceUnavailableError
    simp

/-! ## C10 helper lemmas -/

set_option maxRecDepth 4096 in
theorem land_mask_of_range : ∀ b < 256, 0x80 ≤ b → b ≤ 0xBF → b &&& 0xC0 = 0x80 := by
  decide

/-- C10 counterexample: the hand-rolled checker accepts the overlong
encoding C0 80, which Go's `utf8.Valid` rejects, so the two checkers do
not return the same boolean on every byte sequence. -/
theorem isValidUTF8_accepts_overlong :
    isValidUTF8 [0xC0, 0x80] = true ∧ utf8Valid [0xC0, 0x80] = false := by
  exact ⟨by decide, by decide⟩


theorem utf8ValidAux_superset (l : List Nat) : ∀ ps : List (Nat × Nat),
    (∀ b ∈ l, b < 256) → (∀ p ∈ ps, 0x80 ≤ p.1 ∧ p.2 ≤ 0xBF) →
    utf8ValidAux ps l = true → isValidUTF8Aux ps.length l = true := by
  induction l with
  | nil =>
    intro ps hb hps hv
    cases ps with
    | nil => rfl
    | cons p ps2 => simp [utf8ValidAux] at hv
  | cons a t ih =>
    intro ps hb hps hv
    have hb2 : ∀ x ∈ t, x < 256 := fun x hx => hb x (by simp [hx])
    have ha : a < 256 := hb a (by simp)
    cases ps with
    | nil =>
      simp only [utf8ValidAux] at hv
      split_ifs at hv with h1 h2 h3 h4 h5 h6 h7 h8 h9
      · have k1 : a < 128 := by omega
        simp only [List.length_nil, isValidUTF8Aux, if_pos k1]
        exact ih [] hb2 (by simp) hv
      · have k1 : ¬ a < 128 := by omega
        have k2 : ¬ (a < 192 ∨ 248 ≤ a) := by omega
        have k3 : a < 224 := by omega
        simp only [List.length_nil, isValidUTF8Aux, if_neg k1, if_neg k2, if_pos k3]
        exact ih [(0x80, 0xBF)] hb2 (by simp) hv
      · have k1 : ¬ a < 128 := by omega
        have k2 : ¬ (a < 192 ∨ 248 ≤ a) := by omega
        have k3 : ¬ a < 224 := by omega
        have k4 : a < 240 := by omega
        simp only [List.length_nil, isValidUTF8Aux, if_neg k1, if_neg k2, if_neg k3,
          if_pos k4]
        exact ih [(0xA0, 0xBF), (0x80, 0xBF)] hb2 (by simp) hv
      · have k1 : ¬ a < 128 := by omega
        have k2 : ¬ (a < 192 ∨ 248 ≤ a) := by omega
        have k3 : ¬ a < 224 := by omega
        have k4 : a < 240 := by omega
        simp only [List.length_nil, isValidUTF8Aux, if_neg k1, if_neg k2, if_neg k3,
          if_pos k4]
        exact ih [(0x80, 0x9F), (0x80, 0xBF)] hb2 (by simp) hv
      · have k1 : ¬ a < 128 := by omega
        have k2 : ¬ (a < 192 ∨ 248 ≤ a) := by omega
        have k3 : ¬ a < 224 := by omega
        have k4 : a < 240 := by omega
        simp only [List.length_nil, isValidUTF8Aux, if_neg k1, if_neg k2, if_neg k3,
          if_pos k4]
        exact ih [(0x80, 0xBF), (0x80, 0xBF)] hb2 (by simp) hv
      · have k1 : ¬ a < 128 := by omega
        have k2 : ¬ (a < 192 ∨ 248 ≤ a) := by omega
        have k3 : ¬ a < 224 := by omega
        have k4 : ¬ a < 240 := by omega
        simp only [List.length_nil, isValidUTF8Aux, if_neg k1, if_neg k2, if_neg k3,
          if_neg k4]
        exact ih [(0x90, 0xBF), (0x80, 0xBF), (0x80, 0xBF)] hb2 (by simp) hv
      · have k1 : ¬ a < 128 := by omega
        have k2 : ¬ (a < 192 ∨ 248 ≤ a) := by omega
        have k3 : ¬ a < 224 := by omega
        have k4 : ¬ a < 240 := by omega
        simp only [List.length_nil, isValidUTF8Aux, if_neg k1, if_neg k2, if_neg k3,
          if_neg k4]
        exact ih [(0x80, 0xBF), (0x80, 0xBF), (0x80, 0xBF)] hb2 (by simp) hv
      · have k1 : ¬ a < 128 := by omega
        have k2 : ¬ (a < 192 ∨ 248 ≤ a) := by omega
        have k3 : ¬ a < 224 := by omega
        have k4 : ¬ a < 240 := by omega
        simp only [List.length_nil, isValidUTF8Aux, if_neg k1, if_neg k2, if_neg k3,
          if_neg k4]
        exact ih [(0x80, 0x8F), (0x80, 0xBF), (0x80, 0xBF)] hb2 (by simp) hv
    | cons p ps2 =>
      obtain ⟨lo, hi⟩ := p
      simp only [utf8ValidAux] at hv
      split_ifs at hv with hcond
      have hp := hps (lo, hi) (by simp)
      have hmask : a &&& 0xC0 = 0x80 :=
        land_mask_of_range a ha (by omega) (by omega)
      have hps2 : ∀ p ∈ ps2, 0x80 ≤ p.1 ∧ p.2 ≤ 0xBF :=
        fun p hp2 => hps p (by simp [hp2])
      simp only [List.length_cons, isValidUTF8Aux, if_pos hmask]
      exact ih ps2 hb2 hps2 hv

/-- C10 amended: the hand-rolled isValidUTF8 accepts every byte sequence
that utf8.Valid accepts, but not only those: it is a strict superset,
additionally accepting structurally well-formed but semantically invalid
sequences such as overlong encodings, surrogates, and code points above
U+10FFFF. -/
theorem utf8Valid_implies_isValidUTF8 (l : List Nat) (hb : ∀ b ∈ l, b < 256)
    (hv : utf8Valid l = true) : isValidUTF8 l = true :=
  utf8ValidAux_superset l [] hb (by simp) hv

/-- C10 amended witness: a two-byte UTF-8 character accepted by
utf8.Valid is accepted by the hand-rolled checker. -/
theorem utf8Valid_implies_isValidUTF8_witness :
    isValidUTF8 [0xC2, 0x80] = true :=
  utf8Valid_implies_isValidUTF8 [0xC2, 0x80] (by decide) (by decide)
